import Mathlib

/-!
# Trustwise policy-checker: verification of the aggregation and judge layer

Shallow embedding of the TypeScript sources of the `trustwise-policy-checker`
repository:

* `src/server/src/services/AggregationStrategy.ts` (aggregation strategies),
* `src/server/src/services/PolicyEngine.ts` (orchestrator),
* the TypeScript `JudgeService` (circuit breaker, retries, normalisation),
* `src/server/src/types/index.ts` (data model).

Numbers are embedded as rationals (`ℚ`); JavaScript's `x || d` fallback on
numbers (which treats `0` as absent) is modelled explicitly.  Wall-clock
timestamps are passed in as explicit `now : ℕ` arguments; latency metrics,
logging and event emission are not modelled.
-/

namespace Trustwise

/-- The `Verdict` from `types/index.ts`: `'PASS' | 'FAIL' | 'UNCERTAIN'`. -/
inductive Verdict where
  | PASS
  | FAIL
  | UNCERTAIN
  deriving DecidableEq, Repr

/-- The `FinalVerdict` from `types/index.ts`:
`'ALLOW' | 'BLOCK' | 'WARN' | 'REDACT' | 'ERROR'`. -/
inductive FinalVerdict where
  | ALLOW
  | BLOCK
  | WARN
  | REDACT
  | ERROR
  deriving DecidableEq, Repr

/-- The `Action` from `types/index.ts`: `'allow' | 'block' | 'warn' | 'redact'`. -/
inductive Action where
  | allow
  | block
  | warn
  | redact
  deriving DecidableEq, Repr

/-- The `ACTION_PRIORITY` map from `AggregationStrategy.ts`:
`{ block: 3, redact: 2, warn: 1, allow: 0 }`. -/
def ACTION_PRIORITY : Action → ℕ
  | .block => 3
  | .redact => 2
  | .warn => 1
  | .allow => 0

/-- The `finalAction.toUpperCase() as FinalVerdict` on an `Action` string. -/
def Action.toUpper : Action → FinalVerdict
  | .allow => .ALLOW
  | .block => .BLOCK
  | .warn => .WARN
  | .redact => .REDACT

/-- JavaScript `x || d` for an optional number: `undefined`, `null` and `0`
are falsy, so they all fall back to the default. -/
def jsOr (x : Option ℚ) (d : ℚ) : ℚ :=
  match x with
  | some v => if v = 0 then d else v
  | none => d

/-- JavaScript `x || d` for a number that is always present (only `0` is
falsy). -/
def jsOrNum (x : ℚ) (d : ℚ) : ℚ :=
  if x = 0 then d else x

/-- The `RuleResult` from `types/index.ts` (the optional `error`/`errorType`
diagnostic fields play no role in aggregation and are omitted). -/
structure RuleResult where
  rule_id : String
  verdict : Verdict
  confidence : ℚ
  reasoning : String
  action : Action
  weight : ℚ
  latency_ms : ℚ
  deriving DecidableEq, Repr

/-- The `Rule` from `types/index.ts`. -/
structure Rule where
  id : String
  description : Option String
  judge_prompt : String
  on_fail : Action
  weight : Option ℚ
  deriving DecidableEq, Repr

/-- The `Policy` from `types/index.ts`.  `evaluation_strategy` is kept as a raw
string because `createStrategy` must be able to receive an unknown name at
runtime (policies arrive over the API). -/
structure Policy where
  name : String
  version : Option String
  default_action : Action
  rules : List Rule
  evaluation_strategy : String
  threshold : Option ℚ
  deriving DecidableEq, Repr

/-- The `AggregationSummary` from `types/index.ts`.  The numeric `score` is kept
exact (the source's `parseFloat(score.toFixed(3))` display rounding is not
modelled). -/
structure AggregationSummary where
  total_rules : ℕ
  passed : ℕ
  failed : ℕ
  uncertain : ℕ
  strategy : String
  reason : String
  score : Option ℚ
  threshold : Option ℚ
  deriving DecidableEq, Repr

/-- The `AggregationResult` from `types/index.ts`. -/
structure AggregationResult where
  final_verdict : FinalVerdict
  passed : Bool
  summary : AggregationSummary
  deriving DecidableEq, Repr

/-! ## `BaseStrategy.determineFinalAction` (AggregationStrategy.ts 53-68) -/

/-- One iteration of the `for` loop in `determineFinalAction`: state is the
pair `(highestPriority, finalAction)`.  `result.action` is a required,
always-truthy field of `RuleResult`, and `ACTION_PRIORITY[...] || 0` equals
`ACTION_PRIORITY[...]` because the map is total. -/
def detFAStep (s : ℕ × Action) (result : RuleResult) : ℕ × Action :=
  if result.verdict = .FAIL ∧ ACTION_PRIORITY result.action > s.1 then
    (ACTION_PRIORITY result.action, result.action)
  else
    s

/-- The `BaseStrategy.determineFinalAction`: scans the results, keeping the
highest-priority failed action, seeded with the policy's default action
(`ACTION_PRIORITY[defaultAction] || 0` is `ACTION_PRIORITY defaultAction`
since `allow` maps to `0` anyway). -/
def determineFinalAction (ruleResults : List RuleResult) (defaultAction : Action) :
    FinalVerdict :=
  (ruleResults.foldl detFAStep (ACTION_PRIORITY defaultAction, defaultAction)).2.toUpper

/-! ## `AllStrategy.aggregate` (AggregationStrategy.ts 74-134) -/

def AllStrategy.aggregate (ruleResults : List RuleResult) (policy : Policy) :
    AggregationResult :=
  let failedRules := ruleResults.filter fun r => r.verdict == Verdict.FAIL
  let uncertainRules := ruleResults.filter fun r => r.verdict == Verdict.UNCERTAIN
  let passedRules := ruleResults.filter fun r => r.verdict == Verdict.PASS
  if failedRules.length > 0 then
    { final_verdict := determineFinalAction failedRules policy.default_action
      passed := false
      summary :=
        { total_rules := ruleResults.length
          passed := passedRules.length
          failed := failedRules.length
          uncertain := uncertainRules.length
          strategy := "all"
          reason := toString failedRules.length ++ " rule(s) failed - all rules must pass"
          score := none
          threshold := none } }
  else if uncertainRules.length > 0 then
    { final_verdict := .WARN
      passed := true
      summary :=
        { total_rules := ruleResults.length
          passed := passedRules.length
          failed := failedRules.length
          uncertain := uncertainRules.length
          strategy := "all"
          reason := toString uncertainRules.length ++
            " rule(s) uncertain - manual review recommended"
          score := none
          threshold := none } }
  else
    { final_verdict := .ALLOW
      passed := true
      summary :=
        { total_rules := ruleResults.length
          passed := passedRules.length
          failed := failedRules.length
          uncertain := uncertainRules.length
          strategy := "all"
          reason := "All rules passed"
          score := none
          threshold := none } }

/-! ## `AnyStrategy.aggregate` (AggregationStrategy.ts 140-200) -/

def AnyStrategy.aggregate (ruleResults : List RuleResult) (policy : Policy) :
    AggregationResult :=
  let passedRules := ruleResults.filter fun r => r.verdict == Verdict.PASS
  let failedRules := ruleResults.filter fun r => r.verdict == Verdict.FAIL
  let uncertainRules := ruleResults.filter fun r => r.verdict == Verdict.UNCERTAIN
  if passedRules.length > 0 then
    { final_verdict := .ALLOW
      passed := true
      summary :=
        { total_rules := ruleResults.length
          passed := passedRules.length
          failed := failedRules.length
          uncertain := uncertainRules.length
          strategy := "any"
          reason := toString passedRules.length ++ " rule(s) passed - only one required"
          score := none
          threshold := none } }
  else if uncertainRules.length > 0 then
    { final_verdict := .WARN
      passed := false
      summary :=
        { total_rules := ruleResults.length
          passed := passedRules.length
          failed := failedRules.length
          uncertain := uncertainRules.length
          strategy := "any"
          reason := "No rules passed, some uncertain - manual review required"
          score := none
          threshold := none } }
  else
    { final_verdict := determineFinalAction failedRules policy.default_action
      passed := false
      summary :=
        { total_rules := ruleResults.length
          passed := passedRules.length
          failed := failedRules.length
          uncertain := uncertainRules.length
          strategy := "any"
          reason := "All rules failed - at least one must pass"
          score := none
          threshold := none } }

/-! ## `WeightedThresholdStrategy.aggregate` (AggregationStrategy.ts 206-279) -/

/-- Accumulator of the `for` loop in `WeightedThresholdStrategy.aggregate`. -/
structure WTAcc where
  totalWeight : ℚ
  passedWeight : ℚ
  passedRules : List RuleResult
  failedRules : List RuleResult
  uncertainRules : List RuleResult
  deriving DecidableEq, Repr

/-- One iteration of that loop.  `result.weight || 1.0` maps a zero weight to
`1.0` (JavaScript falsiness). -/
def wtStep (acc : WTAcc) (result : RuleResult) : WTAcc :=
  let weight := jsOrNum result.weight 1.0
  let acc := { acc with totalWeight := acc.totalWeight + weight }
  if result.verdict = .PASS then
    { acc with
      passedWeight := acc.passedWeight + weight
      passedRules := acc.passedRules ++ [result] }
  else if result.verdict = .FAIL then
    { acc with failedRules := acc.failedRules ++ [result] }
  else
    { acc with
      passedWeight := acc.passedWeight + weight * 0.5
      uncertainRules := acc.uncertainRules ++ [result] }

/-- The effective threshold `policy.threshold || 0.7` (a present-but-zero
threshold falls back to `0.7` because `0` is falsy in JavaScript). -/
def effectiveThreshold (policy : Policy) : ℚ :=
  jsOr policy.threshold 0.7

def WeightedThresholdStrategy.aggregate (ruleResults : List RuleResult)
    (policy : Policy) : AggregationResult :=
  let threshold := effectiveThreshold policy
  let acc := ruleResults.foldl wtStep ⟨0, 0, [], [], []⟩
  let score := if acc.totalWeight > 0 then acc.passedWeight / acc.totalWeight else 0
  let passed : Bool := score ≥ threshold
  if passed then
    { final_verdict := .ALLOW
      passed := true
      summary :=
        { total_rules := ruleResults.length
          passed := acc.passedRules.length
          failed := acc.failedRules.length
          uncertain := acc.uncertainRules.length
          strategy := "weighted_threshold"
          reason := "weighted score reached threshold"
          score := some score
          threshold := some threshold } }
  else
    let finalAction :=
      if acc.failedRules.length > 0 then
        determineFinalAction acc.failedRules policy.default_action
      else
        FinalVerdict.BLOCK
    { final_verdict := finalAction
      passed := false
      summary :=
        { total_rules := ruleResults.length
          passed := acc.passedRules.length
          failed := acc.failedRules.length
          uncertain := acc.uncertainRules.length
          strategy := "weighted_threshold"
          reason := "weighted score below threshold"
          score := some score
          threshold := some threshold } }

/-! ## `createStrategy` (AggregationStrategy.ts 288-302) -/

/-- The three registered strategies, as a name-indexed lookup; `none` models
the `throw new Error('Unknown evaluation strategy: ...')` branch. -/
def createStrategy (strategyName : String) :
    Option (List RuleResult → Policy → AggregationResult) :=
  if strategyName = "all" then some AllStrategy.aggregate
  else if strategyName = "any" then some AnyStrategy.aggregate
  else if strategyName = "weighted_threshold" then some WeightedThresholdStrategy.aggregate
  else none

/-! ## JudgeService data model (`types/index.ts`, JudgeService source) -/

/-- The `ErrorType` enum from `types/index.ts`. -/
inductive ErrorType where
  | TIMEOUT
  | RATE_LIMIT
  | SERVER_ERROR
  | AUTH_ERROR
  | NETWORK_ERROR
  | PARSE_ERROR
  | UNKNOWN
  deriving DecidableEq, Repr

/-- The `CircuitState` enum from `types/index.ts`. -/
inductive CircuitState where
  | CLOSED
  | OPEN
  | HALF_OPEN
  deriving DecidableEq, Repr

/-- The `ExtendedError` from the JudgeService source (an `Error` with optional
HTTP status information).  `retryAfterSeconds` models the result of the
`/retry.?after[:\s]+(\d+)/i` regex match on `message` in `handleRateLimit`
(the regex engine itself is not embedded; the field carries the parsed
number of seconds when the message matches). -/
structure ExtendedError where
  message : String
  status : Option ℕ
  statusCode : Option ℕ
  code : Option String
  retryAfterSeconds : Option ℕ
  deriving DecidableEq, Repr

/-- The `RetryConfig` from `types/index.ts`. -/
structure RetryConfig where
  maxRetries : ℕ
  initialDelayMs : ℚ
  maxDelayMs : ℚ
  backoffMultiplier : ℚ
  jitterFactor : ℚ
  deriving DecidableEq, Repr

/-- The `CircuitBreakerConfig` from `types/index.ts` (mutable state plus
configuration, exactly as the source bundles them). -/
structure CircuitBreakerConfig where
  state : CircuitState
  failureCount : ℕ
  failureThreshold : ℕ
  resetTimeoutMs : ℕ
  lastFailureTime : Option ℕ
  halfOpenSuccessThreshold : ℕ
  halfOpenSuccessCount : ℕ
  deriving DecidableEq, Repr

/-- The `RateLimitState` from `types/index.ts`. -/
structure RateLimitState where
  isLimited : Bool
  retryAfterMs : ℚ
  lastRateLimitTime : Option ℕ
  deriving DecidableEq, Repr

/-- The mutable state of a `JudgeService` instance that the modelled methods
touch (performance metrics are counters with no control-flow effect and are
not modelled). -/
structure JudgeState where
  circuitBreaker : CircuitBreakerConfig
  rateLimitState : RateLimitState
  deriving DecidableEq, Repr

/-- The circuit breaker as initialised by the `JudgeService` constructor:
`CLOSED`, zero counters, `halfOpenSuccessThreshold: 2`; the thresholds come
from the config (`config.circuitBreakerThreshold || 5`,
`config.circuitBreakerResetMs || 30000`, both applied by the caller). -/
def initCircuitBreaker (failureThreshold resetTimeoutMs : ℕ) : CircuitBreakerConfig :=
  { state := .CLOSED
    failureCount := 0
    failureThreshold := failureThreshold
    resetTimeoutMs := resetTimeoutMs
    lastFailureTime := none
    halfOpenSuccessThreshold := 2
    halfOpenSuccessCount := 0 }

/-! ## Circuit breaker methods (JudgeService 272-353) -/

/-- The `checkCircuitBreaker`: in the `OPEN` state, either transition to
`HALF_OPEN` (reset timeout elapsed: `timeSinceLastFailure >= resetTimeoutMs`,
with `Date.now() - (lastFailureTime || 0)`) or throw.  Any other state passes
through unchanged. -/
def checkCircuitBreaker (cb : CircuitBreakerConfig) (now : ℕ) :
    Except String CircuitBreakerConfig :=
  if cb.state = .OPEN then
    let timeSinceLastFailure := now - cb.lastFailureTime.getD 0
    if timeSinceLastFailure ≥ cb.resetTimeoutMs then
      .ok { cb with state := .HALF_OPEN, halfOpenSuccessCount := 0 }
    else
      .error "Circuit breaker OPEN - service unavailable"
  else
    .ok cb

/-- The `openCircuit`: set the state to `OPEN` if it is not already (the metrics
counter bump is not modelled). -/
def openCircuit (cb : CircuitBreakerConfig) : CircuitBreakerConfig :=
  if cb.state ≠ .OPEN then { cb with state := .OPEN } else cb

/-- The `recordSuccess`: in `HALF_OPEN` count successes and close the circuit at
the `halfOpenSuccessThreshold`; in `CLOSED` reset the failure count; always
clear the rate-limit flag. -/
def recordSuccess (st : JudgeState) : JudgeState :=
  let cb := st.circuitBreaker
  let cb :=
    if cb.state = .HALF_OPEN then
      let cb := { cb with halfOpenSuccessCount := cb.halfOpenSuccessCount + 1 }
      if cb.halfOpenSuccessCount ≥ cb.halfOpenSuccessThreshold then
        { cb with state := .CLOSED, failureCount := 0 }
      else cb
    else if cb.state = .CLOSED then
      { cb with failureCount := 0 }
    else cb
  { st with
    circuitBreaker := cb
    rateLimitState := { st.rateLimitState with isLimited := false } }

/-- The `handleRateLimit`: mark the service rate limited and set `retryAfterMs`
from the parsed `retry-after` seconds in the error message, defaulting to
60000 ms. -/
def handleRateLimit (rl : RateLimitState) (error : ExtendedError) (now : ℕ) :
    RateLimitState :=
  { rl with
    isLimited := true
    lastRateLimitTime := some now
    retryAfterMs :=
      match error.retryAfterSeconds with
      | some s => (s : ℚ) * 1000
      | none => 60000 }

/-- The `recordFailure`: bump the failure count, stamp the failure time, handle
rate limits, then trip the circuit (immediately from `HALF_OPEN`, or when the
failure count reaches the threshold). -/
def recordFailure (st : JudgeState) (errorType : ErrorType) (error : ExtendedError)
    (now : ℕ) : JudgeState :=
  let cb := { st.circuitBreaker with
    failureCount := st.circuitBreaker.failureCount + 1
    lastFailureTime := some now }
  let rl :=
    if errorType = .RATE_LIMIT then handleRateLimit st.rateLimitState error now
    else st.rateLimitState
  let cb :=
    if cb.state = .HALF_OPEN then openCircuit cb
    else if cb.failureCount ≥ cb.failureThreshold then openCircuit cb
    else cb
  { circuitBreaker := cb, rateLimitState := rl }

/-! ## Error categorisation and retries (JudgeService 379-516) -/

/-- JavaScript `string.includes(pattern)` on a string already turned into a
character list. -/
def strIncludes (s : List Char) (pat : String) : Bool :=
  decide (pat.toList <:+: s)

/-- The `message.toLowerCase()`, character by character (the effect of
`String.toLower`, phrased over the character list). -/
def lowerMessage (s : String) : List Char :=
  s.toList.map Char.toLower

/-- The `categorizeError` (JudgeService 379-427), the same cascade of checks over
the lowercased message, the HTTP status (`error.status || error.statusCode`)
and the error code. -/
def categorizeError (error : ExtendedError) : ErrorType :=
  let message := lowerMessage error.message
  let status : Option ℕ :=
    match error.status with
    | some s => if s = 0 then error.statusCode else some s
    | none => error.statusCode
  if strIncludes message "timeout" || strIncludes message "etimedout" ||
      strIncludes message "econnreset" ||
      error.code == some "ETIMEDOUT" || error.code == some "ECONNRESET" then
    .TIMEOUT
  else if status == some 429 || strIncludes message "rate limit" ||
      strIncludes message "too many requests" || strIncludes message "quota" then
    .RATE_LIMIT
  else if (match status with | some s => 500 ≤ s && s < 600 | none => false) then
    .SERVER_ERROR
  else if status == some 401 || status == some 403 ||
      strIncludes message "unauthorized" || strIncludes message "invalid api key" then
    .AUTH_ERROR
  else if strIncludes message "enotfound" || strIncludes message "econnrefused" ||
      strIncludes message "network" ||
      error.code == some "ENOTFOUND" || error.code == some "ECONNREFUSED" then
    .NETWORK_ERROR
  else if strIncludes message "json" || strIncludes message "parse" then
    .PARSE_ERROR
  else
    .UNKNOWN

/-- The `isRetryableError`: only transient error categories are retried. -/
def isRetryableError (errorType : ErrorType) : Bool :=
  errorType == .TIMEOUT || errorType == .RATE_LIMIT ||
  errorType == .SERVER_ERROR || errorType == .NETWORK_ERROR

/-- The `calculateRetryDelay` (JudgeService 445-461): exponential backoff, the
rate-limit `retry-after` floor applied BEFORE the `maxDelayMs` cap, then
jitter (`Math.random()` is passed in as `rand`) and `Math.floor`. -/
def calculateRetryDelay (rc : RetryConfig) (rl : RateLimitState) (attempt : ℕ)
    (errorType : ErrorType) (rand : ℚ) : ℤ :=
  let baseDelay := rc.initialDelayMs * rc.backoffMultiplier ^ (attempt - 1)
  let baseDelay :=
    if errorType = .RATE_LIMIT ∧ rl.retryAfterMs > 0 then
      max baseDelay rl.retryAfterMs
    else baseDelay
  let baseDelay := min baseDelay rc.maxDelayMs
  let jitter := baseDelay * rc.jitterFactor * rand
  Int.floor (baseDelay + jitter)

/-- The verdict/confidence/reasoning core that `evaluateLLM` and
`evaluateMock` produce before `evaluate` decorates it. -/
structure JudgeResultCore where
  verdict : Verdict
  confidence : ℚ
  reasoning : String
  deriving DecidableEq, Repr

/-- The `for` loop of `evaluateWithRetry`.  `attempts k` is the outcome of
the `k`-th provider call (`evaluateLLM`), `lastError` the loop's `lastError`
variable, `attempt` the current 1-based attempt number and `remaining` how
many loop iterations are left (`maxRetries - attempt + 1`).  Returns the
result (`Except.error` models the `throw`) together with the number of
provider calls actually made. -/
def retryGo (attempts : ℕ → Except ExtendedError JudgeResultCore)
    (lastError : ExtendedError) (attempt : ℕ) :
    ℕ → Except ExtendedError JudgeResultCore × ℕ
  | 0 => (.error lastError, attempt - 1)
  | remaining + 1 =>
    match attempts attempt with
    | .ok r => (.ok r, attempt)
    | .error e =>
      if isRetryableError (categorizeError e) then
        retryGo attempts e (attempt + 1) remaining
      else
        (.error e, attempt)

/-- The `evaluateWithRetry` (JudgeService 466-516): throws immediately when the
OpenAI client was never initialised, otherwise runs the attempt loop from
attempt 1 up to `maxRetries` with `lastError` initialised to
`Error('Unknown error')`. -/
def evaluateWithRetry (openaiInitialized : Bool)
    (attempts : ℕ → Except ExtendedError JudgeResultCore) (maxRetries : ℕ) :
    Except ExtendedError JudgeResultCore × ℕ :=
  if openaiInitialized then
    retryGo attempts { message := "Unknown error", status := none, statusCode := none,
                       code := none, retryAfterSeconds := none } 1 maxRetries
  else
    (.error { message := "OPENAI_API_KEY not configured - cannot evaluate content",
              status := none, statusCode := none, code := none,
              retryAfterSeconds := none }, 0)

/-! ## Confidence and verdict normalisation (JudgeService 642-678) -/

/-- The value of `parseFloat(String(confidence))` on the raw LLM confidence:
either a rational number or `NaN` (non-numeric input). -/
inductive ConfValue where
  | num (q : ℚ)
  | nonNumeric
  deriving DecidableEq, Repr

/-- The `normalizeConfidence` (JudgeService 661-678): `undefined`/`null` and
unparsable input give `0.5`; values above 1 are read on a 0-100 scale and
capped at 1; everything else is clamped to `[0, 1]`. -/
def normalizeConfidence (confidence : Option ConfValue) : ℚ :=
  match confidence with
  | none => 0.5
  | some .nonNumeric => 0.5
  | some (.num num) =>
    if num > 1 then
      min 1 (num / 100)
    else
      max 0 (min 1 num)

/-! ## `JudgeService.evaluate` (JudgeService 184-267) -/

/-- The `JudgeEvaluationResult` from `types/index.ts`.  The wall-clock
`latency_ms` measurement is not modelled and stays `none`. -/
structure JudgeEvaluationResult where
  verdict : Verdict
  confidence : ℚ
  reasoning : String
  latency_ms : Option ℚ
  error : Option String
  errorType : Option ErrorType
  deriving DecidableEq, Repr

/-- The `MockResponse` from `types/index.ts` (record form; mock responses given
as functions can simply be represented by the record they would return). -/
structure MockResponse where
  verdict : Option Verdict
  confidence : Option ℚ
  reasoning : Option String
  timeout : Option ℕ
  rateLimit : Bool
  circuitBreaker : Bool
  deriving DecidableEq, Repr

/-- The configuration of a `JudgeService` instance relevant to `evaluate`:
mock mode, whether the OpenAI client was initialised, the retry settings and
the registered mock responses (`mockResponses[rule.id]`). -/
structure ServiceConfig where
  mockMode : Bool
  openaiInitialized : Bool
  retryConfig : RetryConfig
  mockResponses : String → Option MockResponse

/-- The `evaluateMock` (JudgeService 592-637).  Simulated failures are thrown
(`Except.error`); the circuit-breaker simulation mutates the breaker before
throwing, so the state is threaded through. -/
def evaluateMock (cfg : ServiceConfig) (st : JudgeState) (rule : Rule) :
    Except (ExtendedError × JudgeState) (JudgeResultCore × JudgeState) :=
  match cfg.mockResponses rule.id with
  | some response =>
    if response.timeout.getD 0 ≠ 0 then
      .error ({ message := "Request timeout", status := none, statusCode := none,
                code := none, retryAfterSeconds := none }, st)
    else if response.rateLimit then
      .error ({ message := "Rate limit exceeded", status := some 429,
                statusCode := none, code := none, retryAfterSeconds := none }, st)
    else if response.circuitBreaker then
      let cb := { st.circuitBreaker with
        failureCount := st.circuitBreaker.failureThreshold }
      let st := { st with circuitBreaker := openCircuit cb }
      .error ({ message := "Circuit breaker OPEN", status := none, statusCode := none,
                code := none, retryAfterSeconds := none }, st)
    else
      .ok ({ verdict := response.verdict.getD .PASS
             confidence := jsOr response.confidence 0.9
             reasoning := response.reasoning.getD "Mock evaluation" }, st)
  | none =>
    .ok ({ verdict := .PASS
           confidence := 0.9
           reasoning := "Mock evaluation - content appears acceptable" }, st)

/-- The `try` block of `JudgeService.evaluate`: circuit-breaker check, then
the mock or live (`evaluateWithRetry`) path.  `attempts` is the oracle of
provider-call outcomes for this evaluation. -/
def evalInner (cfg : ServiceConfig) (st : JudgeState)
    (attempts : ℕ → Except ExtendedError JudgeResultCore) (rule : Rule)
    (now : ℕ) : Except (ExtendedError × JudgeState) (JudgeResultCore × JudgeState) :=
  match checkCircuitBreaker st.circuitBreaker now with
  | .error msg =>
    .error ({ message := msg, status := none, statusCode := none, code := none,
              retryAfterSeconds := none }, st)
  | .ok cb' =>
    let st1 := { st with circuitBreaker := cb' }
    if cfg.mockMode then
      evaluateMock cfg st1 rule
    else
      match (evaluateWithRetry cfg.openaiInitialized attempts
              cfg.retryConfig.maxRetries).1 with
      | .ok r => .ok (r, st1)
      | .error e => .error (e, st1)

/-- The `JudgeService.evaluate` (JudgeService 184-267): run the `try` block; on
success record the success, on any thrown error categorise it, record the
failure and resolve with the synthetic `UNCERTAIN` result.  The method never
rejects: its Lean type is a plain pair, not an `Except`. -/
def JudgeService.evaluate (cfg : ServiceConfig) (st : JudgeState)
    (attempts : ℕ → Except ExtendedError JudgeResultCore) (rule : Rule)
    (content : String) (now : ℕ) : JudgeEvaluationResult × JudgeState :=
  match evalInner cfg st attempts rule now with
  | .ok (r, st1) =>
    ({ verdict := r.verdict
       confidence := r.confidence
       reasoning := r.reasoning
       latency_ms := none
       error := none
       errorType := none }, recordSuccess st1)
  | .error (e, st1) =>
    let errorType := categorizeError e
    ({ verdict := .UNCERTAIN
       confidence := 0
       reasoning := "Evaluation failed: " ++ e.message
       latency_ms := none
       error := some e.message
       errorType := some errorType }, recordFailure st1 errorType e now)

/-! ## `PolicyEngine.evaluate` (PolicyEngine.ts 99-195) -/

/-- The `PolicyVerdict` from `types/index.ts` (timestamps and latency metrics
not modelled). -/
structure PolicyVerdict where
  policy_name : String
  policy_version : Option String
  final_verdict : FinalVerdict
  passed : Bool
  rule_results : List RuleResult
  summary : Option AggregationSummary
  error : Option String
  deriving DecidableEq, Repr

/-- The `evaluateRules` (PolicyEngine.ts 200-255): both the parallel and the
sequential variant build, per rule, a `RuleResult` from the judge's answer;
`judge` abstracts `judgeService.evaluate`, which by its catch-all never
rejects, so it is a total function here.  `rule.weight || 1.0` and
`result.latency_ms || 0` follow JavaScript falsiness. -/
def evaluateRules (judge : Rule → String → JudgeEvaluationResult)
    (rules : List Rule) (content : String) : List RuleResult :=
  rules.map fun rule =>
    let result := judge rule content
    { rule_id := rule.id
      action := rule.on_fail
      weight := jsOr rule.weight 1.0
      verdict := result.verdict
      confidence := result.confidence
      reasoning := result.reasoning
      latency_ms := jsOr result.latency_ms 0 }

/-- The `PolicyEngine.evaluate` (PolicyEngine.ts 99-195).  Inside the `try`
block the only statement that can throw is `createStrategy` (rule evaluation
never rejects and aggregation is pure), so the `catch` producing the `ERROR`
verdict is taken exactly when the strategy name is unknown. -/
def PolicyEngine.evaluate (judge : Rule → String → JudgeEvaluationResult)
    (policy : Policy) (content : String) : PolicyVerdict :=
  let ruleResults := evaluateRules judge policy.rules content
  match createStrategy policy.evaluation_strategy with
  | some strategy =>
    let aggregation := strategy ruleResults policy
    { policy_name := policy.name
      policy_version := policy.version
      final_verdict := aggregation.final_verdict
      passed := aggregation.passed
      rule_results := ruleResults
      summary := some aggregation.summary
      error := none }
  | none =>
    { policy_name := policy.name
      policy_version := policy.version
      final_verdict := .ERROR
      passed := false
      rule_results := []
      summary := none
      error := some ("Unknown evaluation strategy: " ++ policy.evaluation_strategy ++
        ". Valid options: all, any, weighted_threshold") }

/-! ## Specification-level helpers for `determineFinalAction` -/

/-- The action component of one `determineFinalAction` loop iteration: the
pair state `(highestPriority, finalAction)` always satisfies
`highestPriority = ACTION_PRIORITY finalAction`, so the loop is equivalent to
this action-only step. -/
def detFAStepA (a : Action) (result : RuleResult) : Action :=
  if result.verdict = .FAIL ∧ ACTION_PRIORITY result.action > ACTION_PRIORITY a then
    result.action
  else
    a

/-- Maximum of the seed `n` and the priorities of the failed results'
actions; the quantity `determineFinalAction` computes. -/
def maxFailPrioN (l : List RuleResult) (n : ℕ) : ℕ :=
  l.foldl (fun m r => if r.verdict = .FAIL then max m (ACTION_PRIORITY r.action) else m) n

/-- Effective weight of a rule result: `result.weight || 1.0`. -/
def effWeight (r : RuleResult) : ℚ := jsOrNum r.weight 1.0

/-- Contribution of one result to `passedWeight`: full effective weight for
PASS, half for UNCERTAIN, nothing for FAIL. -/
def wtContribution (r : RuleResult) : ℚ :=
  if r.verdict = .PASS then effWeight r
  else if r.verdict = .FAIL then 0
  else effWeight r * 0.5

/-- Names of the three registered strategies, for quantifying over them. -/
inductive StrategyName where
  | all
  | any
  | weighted_threshold
  deriving DecidableEq, Repr

/-- Dispatch from a strategy name to its `aggregate` implementation. -/
def aggregateOf : StrategyName → List RuleResult → Policy → AggregationResult
  | .all => AllStrategy.aggregate
  | .any => AnyStrategy.aggregate
  | .weighted_threshold => WeightedThresholdStrategy.aggregate

/-- Specification-level score of the weighted strategy: sum of
contributions over sum of effective weights (0 when the total weight
is 0). -/
def wtScore (rr : List RuleResult) : ℚ :=
  if 0 < (rr.map effWeight).sum then
    (rr.map wtContribution).sum / (rr.map effWeight).sum
  else 0

/-- Modelled from the spec: the retry-delay formula claimed by C7 - the
exponential backoff is capped at `maxDelayMs` FIRST, jitter is added, and
only then, for a RATE_LIMIT failure with a positive parsed `retryAfterMs`,
the delay is raised to `max(computed, retryAfterMs)`. -/
def claimedRetryDelay (rc : RetryConfig) (rl : RateLimitState) (attempt : ℕ)
    (errorType : ErrorType) (rand : ℚ) : ℚ :=
  let computed :=
    min (rc.initialDelayMs * rc.backoffMultiplier ^ (attempt - 1)) rc.maxDelayMs
  let withJitter := computed + computed * rc.jitterFactor * rand
  if errorType = .RATE_LIMIT ∧ rl.retryAfterMs > 0 then
    max withJitter rl.retryAfterMs
  else
    withJitter

/-- Sequence of recorded failures (error category, error, timestamp),
applied in order. -/
def applyFailures (st : JudgeState) : List (ErrorType × ExtendedError × ℕ) → JudgeState
  | [] => st
  | f :: t => applyFailures (recordFailure st f.1 f.2.1 f.2.2) t

/-- Sequence of `k` consecutive recorded successes. -/
def applySuccesses (st : JudgeState) : ℕ → JudgeState
  | 0 => st
  | n + 1 => applySuccesses (recordSuccess st) n

theorem detFA_pair_eq (l : List RuleResult) (a : Action) :
    l.foldl detFAStep (ACTION_PRIORITY a, a) =
      (ACTION_PRIORITY (l.foldl detFAStepA a), l.foldl detFAStepA a) := by
  induction l generalizing a with
  | nil => rfl
  | cons r t ih =>
    by_cases h : r.verdict = .FAIL ∧ ACTION_PRIORITY r.action > ACTION_PRIORITY a
    · simp only [List.foldl_cons, detFAStep, detFAStepA, if_pos h]
      exact ih r.action
    · simp only [List.foldl_cons, detFAStep, detFAStepA, if_neg h]
      exact ih a

theorem determineFinalAction_eq (l : List RuleResult) (d : Action) :
    determineFinalAction l d = (l.foldl detFAStepA d).toUpper := by
  unfold determineFinalAction
  rw [detFA_pair_eq]

theorem ACTION_PRIORITY_inj {a b : Action} (h : ACTION_PRIORITY a = ACTION_PRIORITY b) :
    a = b := by
  revert h
  cases a <;> cases b <;> simp [ACTION_PRIORITY]

/-- Priority of the accumulated action, seeded with `n`; used to show that
`determineFinalAction` computes the maximum priority. -/
theorem prio_foldA (l : List RuleResult) (d : Action) :
    ACTION_PRIORITY (l.foldl detFAStepA d) = maxFailPrioN l (ACTION_PRIORITY d) := by
  induction l generalizing d with
  | nil => rfl
  | cons r t ih =>
    have hstep : ACTION_PRIORITY (detFAStepA d r) =
        (if r.verdict = .FAIL then
          max (ACTION_PRIORITY d) (ACTION_PRIORITY r.action) else ACTION_PRIORITY d) := by
      unfold detFAStepA
      by_cases hf : r.verdict = .FAIL
      · by_cases hgt : ACTION_PRIORITY r.action > ACTION_PRIORITY d
        · have hcond : r.verdict = .FAIL ∧
              ACTION_PRIORITY r.action > ACTION_PRIORITY d := ⟨hf, hgt⟩
          rw [if_pos hcond, if_pos hf]
          omega
        · have hcond : ¬(r.verdict = .FAIL ∧
              ACTION_PRIORITY r.action > ACTION_PRIORITY d) := fun hc => hgt hc.2
          rw [if_neg hcond, if_pos hf]
          omega
      · have hcond : ¬(r.verdict = .FAIL ∧
            ACTION_PRIORITY r.action > ACTION_PRIORITY d) := fun hc => hf hc.1
        rw [if_neg hcond, if_neg hf]
    simp only [List.foldl_cons, maxFailPrioN] at ih ⊢
    rw [ih (detFAStepA d r), hstep]

theorem maxFailPrioN_perm {l₁ l₂ : List RuleResult} (h : l₁.Perm l₂) (n : ℕ) :
    maxFailPrioN l₁ n = maxFailPrioN l₂ n := by
  unfold maxFailPrioN
  refine h.foldl_eq' ?_ n
  intro x _ y _ z
  by_cases hx : x.verdict = .FAIL <;> by_cases hy : y.verdict = .FAIL <;>
    simp [hx, hy, Nat.max_assoc, Nat.max_comm, Nat.max_left_comm]

theorem foldA_perm {l₁ l₂ : List RuleResult} (h : l₁.Perm l₂) (d : Action) :
    l₁.foldl detFAStepA d = l₂.foldl detFAStepA d := by
  apply ACTION_PRIORITY_inj
  rw [prio_foldA, prio_foldA, maxFailPrioN_perm h]

theorem determineFinalAction_perm {l₁ l₂ : List RuleResult} (h : l₁.Perm l₂)
    (d : Action) : determineFinalAction l₁ d = determineFinalAction l₂ d := by
  rw [determineFinalAction_eq, determineFinalAction_eq, foldA_perm h]

/-- The accumulated action is the maximum-priority element among the seed and
the failed results' actions: it is one of them, dominates the seed, and
dominates every failed result's action. -/
theorem foldA_max_spec (l : List RuleResult) (d : Action) :
    (l.foldl detFAStepA d = d ∨
      ∃ r ∈ l, r.verdict = .FAIL ∧ r.action = l.foldl detFAStepA d) ∧
    ACTION_PRIORITY d ≤ ACTION_PRIORITY (l.foldl detFAStepA d) ∧
    ∀ r ∈ l, r.verdict = .FAIL →
      ACTION_PRIORITY r.action ≤ ACTION_PRIORITY (l.foldl detFAStepA d) := by
  induction l generalizing d with
  | nil => simp
  | cons r t ih =>
    have hstep : detFAStepA d r = d ∨ (r.verdict = .FAIL ∧ detFAStepA d r = r.action) := by
      unfold detFAStepA
      split_ifs with h
      · exact .inr ⟨h.1, rfl⟩
      · exact .inl rfl
    have hmono : ACTION_PRIORITY d ≤ ACTION_PRIORITY (detFAStepA d r) := by
      unfold detFAStepA
      split_ifs with h
      · exact Nat.le_of_lt h.2
      · exact Nat.le_refl _
    have hrb : r.verdict = .FAIL →
        ACTION_PRIORITY r.action ≤ ACTION_PRIORITY (detFAStepA d r) := by
      intro hf
      unfold detFAStepA
      split_ifs with h
      · exact Nat.le_refl _
      · push_neg at h
        exact h hf
    obtain ⟨ih1, ih2, ih3⟩ := ih (detFAStepA d r)
    simp only [List.foldl_cons]
    refine ⟨?_, ?_, ?_⟩
    · rcases ih1 with h1 | ⟨r', hr', hf', ha'⟩
      · rcases hstep with h2 | ⟨hf2, h2⟩
        · exact .inl (h1.trans h2)
        · exact .inr ⟨r, List.mem_cons_self r t, hf2, by rw [← h2, h1]⟩
      · exact .inr ⟨r', List.mem_cons_of_mem r hr', hf', ha'⟩
    · exact Nat.le_trans hmono ih2
    · intro r' hr' hf'
      rcases List.mem_cons.mp hr' with h | h
      · subst h
        exact Nat.le_trans (hrb hf') ih2
      · exact ih3 r' h hf'

/-! ## C1: ALL strategy with at least one FAIL -/

/-- C1 counterexample input: a single failed rule whose `on_fail` is `warn`,
under a policy whose `default_action` is `block`.  The claim predicts
`final_verdict = WARN` (the uppercase `on_fail` of the highest-priority
failed rule, "regardless of the policy's default_action"); the code returns
`BLOCK` because `determineFinalAction` seeds the scan with the default
action's priority. -/
theorem c1_counterexample :
    (AllStrategy.aggregate
        [{ rule_id := "r1", verdict := .FAIL, confidence := 1, reasoning := "x",
           action := .warn, weight := 1, latency_ms := 0 }]
        { name := "p", version := none, default_action := .block, rules := [],
          evaluation_strategy := "all", threshold := none }).final_verdict =
      FinalVerdict.BLOCK ∧
    FinalVerdict.BLOCK ≠ Action.toUpper Action.warn := by
  constructor
  · decide
  · decide

/-- C1 (amended): for the ALL strategy, whenever some rule FAILED, the result
has `passed = false` and `final_verdict` is the uppercase of the
maximum-priority action among the failed rules' `on_fail` actions AND the
policy's `default_action` (which acts as a floor); the verdict is independent
of the input order. -/
theorem all_strategy_fail_verdict (rr : List RuleResult) (p : Policy)
    (h : ∃ r ∈ rr, r.verdict = .FAIL) :
    (AllStrategy.aggregate rr p).passed = false ∧
    (∃ a : Action,
      (AllStrategy.aggregate rr p).final_verdict = a.toUpper ∧
      (a = p.default_action ∨ ∃ r ∈ rr, r.verdict = .FAIL ∧ r.action = a) ∧
      ACTION_PRIORITY p.default_action ≤ ACTION_PRIORITY a ∧
      ∀ r ∈ rr, r.verdict = .FAIL → ACTION_PRIORITY r.action ≤ ACTION_PRIORITY a) ∧
    ∀ rr' : List RuleResult, rr.Perm rr' →
      (AllStrategy.aggregate rr' p).final_verdict = (AllStrategy.aggregate rr p).final_verdict := by
  obtain ⟨r0, hr0, hf0⟩ := h
  have hfilter : 0 < (rr.filter fun r => r.verdict == Verdict.FAIL).length := by
    apply List.length_pos.mpr
    intro hnil
    have : r0 ∈ rr.filter fun r => r.verdict == Verdict.FAIL := by
      rw [List.mem_filter]
      exact ⟨hr0, by rw [hf0]; rfl⟩
    rw [hnil] at this
    exact List.not_mem_nil r0 this
  have hagg : (AllStrategy.aggregate rr p).final_verdict =
      determineFinalAction (rr.filter fun r => r.verdict == Verdict.FAIL)
        p.default_action ∧ (AllStrategy.aggregate rr p).passed = false := by
    unfold AllStrategy.aggregate
    rw [if_pos hfilter]
    exact ⟨rfl, rfl⟩
  refine ⟨hagg.2, ?_, ?_⟩
  · set l := rr.filter fun r => r.verdict == Verdict.FAIL with hl
    refine ⟨l.foldl detFAStepA p.default_action, ?_, ?_, ?_, ?_⟩
    · rw [hagg.1, determineFinalAction_eq]
    · obtain ⟨h1, _, _⟩ := foldA_max_spec l p.default_action
      rcases h1 with h1 | ⟨r', hr', hf', ha'⟩
      · exact .inl h1
      · exact .inr ⟨r', (List.mem_filter.mp hr').1, hf', ha'⟩
    · exact (foldA_max_spec l p.default_action).2.1
    · intro r' hr' hf'
      refine (foldA_max_spec l p.default_action).2.2 r' ?_ hf'
      rw [hl, List.mem_filter]
      exact ⟨hr', by rw [hf']; rfl⟩
  · intro rr' hperm
    have hfilter' : 0 < (rr'.filter fun r => r.verdict == Verdict.FAIL).length := by
      rw [← (hperm.filter _).length_eq]
      exact hfilter
    have hagg' : (AllStrategy.aggregate rr' p).final_verdict =
        determineFinalAction (rr'.filter fun r => r.verdict == Verdict.FAIL)
          p.default_action := by
      unfold AllStrategy.aggregate
      simp only [if_pos hfilter']
    rw [hagg', hagg.1]
    exact determineFinalAction_perm (hperm.filter _).symm p.default_action

/-- Witness for `all_strategy_fail_verdict` at a concrete failing input. -/
theorem all_strategy_fail_verdict_witness :
    (AllStrategy.aggregate
        [{ rule_id := "r1", verdict := .FAIL, confidence := 1, reasoning := "x",
           action := .warn, weight := 1, latency_ms := 0 }]
        { name := "p", version := none, default_action := .block, rules := [],
          evaluation_strategy := "all", threshold := none }).passed = false :=
  (all_strategy_fail_verdict _ _
    ⟨{ rule_id := "r1", verdict := .FAIL, confidence := 1, reasoning := "x",
       action := .warn, weight := 1, latency_ms := 0 },
      List.mem_singleton.mpr rfl, rfl⟩).1

/-! ## C9: aggregation is order-independent -/

/-- The contribution of one result to `passedWeight`. -/
theorem wtAcc_components (l : List RuleResult) (acc : WTAcc) :
    (l.foldl wtStep acc).totalWeight = acc.totalWeight + (l.map effWeight).sum ∧
    (l.foldl wtStep acc).passedWeight = acc.passedWeight + (l.map wtContribution).sum ∧
    (l.foldl wtStep acc).passedRules =
      acc.passedRules ++ l.filter (fun r => r.verdict == Verdict.PASS) ∧
    (l.foldl wtStep acc).failedRules =
      acc.failedRules ++ l.filter (fun r => r.verdict == Verdict.FAIL) ∧
    (l.foldl wtStep acc).uncertainRules =
      acc.uncertainRules ++ l.filter (fun r => r.verdict == Verdict.UNCERTAIN) := by
  induction l generalizing acc with
  | nil => simp
  | cons r t ih =>
    obtain ⟨i1, i2, i3, i4, i5⟩ := ih (wtStep acc r)
    rcases hv : r.verdict with _ | _ | _
    · have hstep : wtStep acc r =
          ⟨acc.totalWeight + effWeight r, acc.passedWeight + effWeight r,
            acc.passedRules ++ [r], acc.failedRules, acc.uncertainRules⟩ := by
        simp [wtStep, hv, effWeight]
      rw [hstep] at i1 i2 i3 i4 i5
      dsimp only at i1 i2 i3 i4 i5
      rw [List.foldl_cons, hstep]
      refine ⟨?_, ?_, ?_, ?_, ?_⟩
      · rw [i1]
        simp only [List.map_cons, List.sum_cons]
        ring
      · rw [i2]
        simp [wtContribution, hv]
        try ring
      · rw [i3, List.filter_cons]
        simp +decide [hv]
      · rw [i4, List.filter_cons]
        simp +decide [hv]
      · rw [i5, List.filter_cons]
        simp +decide [hv]
    · have hstep : wtStep acc r =
          ⟨acc.totalWeight + effWeight r, acc.passedWeight,
            acc.passedRules, acc.failedRules ++ [r], acc.uncertainRules⟩ := by
        simp [wtStep, hv, effWeight]
      rw [hstep] at i1 i2 i3 i4 i5
      dsimp only at i1 i2 i3 i4 i5
      rw [List.foldl_cons, hstep]
      refine ⟨?_, ?_, ?_, ?_, ?_⟩
      · rw [i1]
        simp only [List.map_cons, List.sum_cons]
        ring
      · rw [i2]
        simp [wtContribution, hv]
        try ring
      · rw [i3, List.filter_cons]
        simp +decide [hv]
      · rw [i4, List.filter_cons]
        simp +decide [hv]
      · rw [i5, List.filter_cons]
        simp +decide [hv]
    · have hstep : wtStep acc r =
          ⟨acc.totalWeight + effWeight r, acc.passedWeight + effWeight r * 0.5,
            acc.passedRules, acc.failedRules, acc.uncertainRules ++ [r]⟩ := by
        simp [wtStep, hv, effWeight]
      rw [hstep] at i1 i2 i3 i4 i5
      dsimp only at i1 i2 i3 i4 i5
      rw [List.foldl_cons, hstep]
      refine ⟨?_, ?_, ?_, ?_, ?_⟩
      · rw [i1]
        simp only [List.map_cons, List.sum_cons]
        ring
      · rw [i2]
        simp [wtContribution, hv]
        try ring
      · rw [i3, List.filter_cons]
        simp +decide [hv]
      · rw [i4, List.filter_cons]
        simp +decide [hv]
      · rw [i5, List.filter_cons]
        simp +decide [hv]

theorem all_aggregate_perm {l₁ l₂ : List RuleResult} (h : l₁.Perm l₂) (p : Policy) :
    AllStrategy.aggregate l₁ p = AllStrategy.aggregate l₂ p := by
  simp only [AllStrategy.aggregate]
  rw [h.length_eq, (h.filter (fun r => r.verdict == Verdict.FAIL)).length_eq,
    (h.filter (fun r => r.verdict == Verdict.UNCERTAIN)).length_eq,
    (h.filter (fun r => r.verdict == Verdict.PASS)).length_eq,
    determineFinalAction_perm (h.filter (fun r => r.verdict == Verdict.FAIL)) p.default_action]

theorem any_aggregate_perm {l₁ l₂ : List RuleResult} (h : l₁.Perm l₂) (p : Policy) :
    AnyStrategy.aggregate l₁ p = AnyStrategy.aggregate l₂ p := by
  simp only [AnyStrategy.aggregate]
  rw [h.length_eq, (h.filter (fun r => r.verdict == Verdict.FAIL)).length_eq,
    (h.filter (fun r => r.verdict == Verdict.UNCERTAIN)).length_eq,
    (h.filter (fun r => r.verdict == Verdict.PASS)).length_eq,
    determineFinalAction_perm (h.filter (fun r => r.verdict == Verdict.FAIL)) p.default_action]

theorem weighted_aggregate_perm {l₁ l₂ : List RuleResult} (h : l₁.Perm l₂) (p : Policy) :
    WeightedThresholdStrategy.aggregate l₁ p = WeightedThresholdStrategy.aggregate l₂ p := by
  obtain ⟨a1, a2, a3, a4, a5⟩ := wtAcc_components l₁ ⟨0, 0, [], [], []⟩
  obtain ⟨b1, b2, b3, b4, b5⟩ := wtAcc_components l₂ ⟨0, 0, [], [], []⟩
  simp only [zero_add, List.nil_append] at a1 a2 a3 a4 a5 b1 b2 b3 b4 b5
  simp only [WeightedThresholdStrategy.aggregate]
  rw [a1, b1, a2, b2, a3, b3, a4, b4, a5, b5, (h.map effWeight).sum_eq,
    (h.map wtContribution).sum_eq, h.length_eq,
    (h.filter (fun r => r.verdict == Verdict.PASS)).length_eq,
    (h.filter (fun r => r.verdict == Verdict.FAIL)).length_eq,
    (h.filter (fun r => r.verdict == Verdict.UNCERTAIN)).length_eq,
    determineFinalAction_perm (h.filter (fun r => r.verdict == Verdict.FAIL)) p.default_action]

/-- C9: for each of the three aggregation strategies and every policy,
`aggregate` is a pure function of the multiset of rule results: permuting the
input list changes neither the final verdict nor the passed flag. -/
theorem aggregate_order_independent (s : StrategyName) {l₁ l₂ : List RuleResult}
    (h : l₁.Perm l₂) (p : Policy) :
    (aggregateOf s l₁ p).final_verdict = (aggregateOf s l₂ p).final_verdict ∧
    (aggregateOf s l₁ p).passed = (aggregateOf s l₂ p).passed := by
  have hfull : aggregateOf s l₁ p = aggregateOf s l₂ p := by
    cases s
    · exact all_aggregate_perm h p
    · exact any_aggregate_perm h p
    · exact weighted_aggregate_perm h p
  rw [hfull]
  exact ⟨rfl, rfl⟩

/-- Witness for `aggregate_order_independent`: swapping two concrete results
under the ALL strategy. -/
theorem aggregate_order_independent_witness :
    (aggregateOf .all
        [{ rule_id := "a", verdict := .FAIL, confidence := 1, reasoning := "x",
           action := .warn, weight := 1, latency_ms := 0 },
         { rule_id := "b", verdict := .PASS, confidence := 1, reasoning := "y",
           action := .block, weight := 1, latency_ms := 0 }]
        { name := "p", version := none, default_action := .allow, rules := [],
          evaluation_strategy := "all", threshold := none }).final_verdict =
      (aggregateOf .all
        [{ rule_id := "b", verdict := .PASS, confidence := 1, reasoning := "y",
           action := .block, weight := 1, latency_ms := 0 },
         { rule_id := "a", verdict := .FAIL, confidence := 1, reasoning := "x",
           action := .warn, weight := 1, latency_ms := 0 }]
        { name := "p", version := none, default_action := .allow, rules := [],
          evaluation_strategy := "all", threshold := none }).final_verdict :=
  (aggregate_order_independent .all (List.Perm.swap _ _ _) _).1

/-! ## C10: behaviour on an empty list of rule results -/

/-- C10: on an empty result list, ALL allows (`passed = true`), ANY fails
with the uppercase default action, and WEIGHTED_THRESHOLD scores 0 and, for
any positive effective threshold, blocks with `passed = false`. -/
theorem empty_rule_results (p : Policy) :
    (AllStrategy.aggregate [] p).final_verdict = .ALLOW ∧
    (AllStrategy.aggregate [] p).passed = true ∧
    (AnyStrategy.aggregate [] p).passed = false ∧
    (AnyStrategy.aggregate [] p).final_verdict = p.default_action.toUpper ∧
    (WeightedThresholdStrategy.aggregate [] p).summary.score = some 0 ∧
    (0 < effectiveThreshold p →
      (WeightedThresholdStrategy.aggregate [] p).final_verdict = .BLOCK ∧
      (WeightedThresholdStrategy.aggregate [] p).passed = false) := by
  refine ⟨?_, ?_, ?_, ?_, ?_, ?_⟩
  · simp [AllStrategy.aggregate]
  · simp [AllStrategy.aggregate]
  · simp [AnyStrategy.aggregate]
  · simp [AnyStrategy.aggregate, determineFinalAction, detFAStep, Action.toUpper]
  · simp only [WeightedThresholdStrategy.aggregate, List.foldl_nil]
    split_ifs <;> norm_num
  · intro hpos
    have hlt : ¬((0 : ℚ) ≥ effectiveThreshold p) := by
      exact not_le.mpr hpos
    simp only [WeightedThresholdStrategy.aggregate, List.foldl_nil]
    norm_num [hlt]

/-- Witness for `empty_rule_results` with its positive-threshold hypothesis
discharged at a concrete policy (no threshold configured, so the effective
threshold is the default `0.7`). -/
theorem empty_rule_results_witness :
    (WeightedThresholdStrategy.aggregate []
      { name := "p", version := none, default_action := .allow, rules := [],
        evaluation_strategy := "weighted_threshold", threshold := none }).final_verdict =
      FinalVerdict.BLOCK :=
  ((empty_rule_results _).2.2.2.2.2 (by norm_num [effectiveThreshold, jsOr])).1

/-! ## Shared characterization of `determineFinalAction` over failed rules -/

theorem determineFinalAction_max_spec (rr : List RuleResult) (d : Action) :
    ∃ a : Action,
      determineFinalAction (rr.filter fun r => r.verdict == Verdict.FAIL) d = a.toUpper ∧
      (a = d ∨ ∃ r ∈ rr, r.verdict = .FAIL ∧ r.action = a) ∧
      ACTION_PRIORITY d ≤ ACTION_PRIORITY a ∧
      ∀ r ∈ rr, r.verdict = .FAIL → ACTION_PRIORITY r.action ≤ ACTION_PRIORITY a := by
  set l := rr.filter fun r => r.verdict == Verdict.FAIL with hl
  refine ⟨l.foldl detFAStepA d, determineFinalAction_eq l d, ?_, ?_, ?_⟩
  · rcases (foldA_max_spec l d).1 with h1 | ⟨r', hr', hf', ha'⟩
    · exact .inl h1
    · exact .inr ⟨r', (List.mem_filter.mp hr').1, hf', ha'⟩
  · exact (foldA_max_spec l d).2.1
  · intro r' hr' hf'
    refine (foldA_max_spec l d).2.2 r' ?_ hf'
    rw [hl, List.mem_filter]
    exact ⟨hr', by rw [hf']; rfl⟩

/-! ## C2: WEIGHTED_THRESHOLD semantics -/

/-- C2 counterexample input: `policy.threshold` present and equal to `0`,
and one FAILED rule.  The claim's threshold is then `0` and the score `0`
satisfies `score >= threshold`, so the claim predicts `final_verdict =
ALLOW` with `passed = true`; the code's `policy.threshold || 0.7` treats the
present-but-zero threshold as absent, compares `0 >= 0.7`, and returns
`passed = false` with `final_verdict = BLOCK`. -/
theorem c2_counterexample :
    (0 : ℚ) ≥ 0 ∧
    (WeightedThresholdStrategy.aggregate
        [{ rule_id := "r1", verdict := .FAIL, confidence := 1, reasoning := "x",
           action := .block, weight := 1, latency_ms := 0 }]
        { name := "p", version := none, default_action := .allow, rules := [],
          evaluation_strategy := "weighted_threshold",
          threshold := some 0 }).passed = false := by
  constructor
  · norm_num
  · simp +decide [WeightedThresholdStrategy.aggregate, effectiveThreshold, jsOr, jsOrNum,
      wtStep]
    norm_num

/-- C2 (amended): the effective threshold is `policy.threshold` when present
and nonzero, else `0.7`; each rule's effective weight is its weight when
nonzero, else `1.0`; PASS contributes its full effective weight, UNCERTAIN
half of it, FAIL nothing; `score = passedWeight / totalWeight` (0 when the
total weight is 0); `score >= threshold` yields ALLOW with `passed = true`;
otherwise `passed = false` and the final verdict is the highest-priority
action among the FAILED rules' `on_fail` actions and the policy's
`default_action`, or BLOCK when no rule FAILED. -/
theorem weighted_threshold_spec (rr : List RuleResult) (p : Policy) :
    ((WeightedThresholdStrategy.aggregate rr p).passed = true ↔
      effectiveThreshold p ≤ wtScore rr) ∧
    (effectiveThreshold p ≤ wtScore rr →
      (WeightedThresholdStrategy.aggregate rr p).final_verdict = .ALLOW) ∧
    (¬ effectiveThreshold p ≤ wtScore rr →
      (WeightedThresholdStrategy.aggregate rr p).passed = false ∧
      ((∀ r ∈ rr, r.verdict ≠ .FAIL) →
        (WeightedThresholdStrategy.aggregate rr p).final_verdict = .BLOCK) ∧
      ((∃ r ∈ rr, r.verdict = .FAIL) →
        ∃ a : Action,
          (WeightedThresholdStrategy.aggregate rr p).final_verdict = a.toUpper ∧
          (a = p.default_action ∨ ∃ r ∈ rr, r.verdict = .FAIL ∧ r.action = a) ∧
          ACTION_PRIORITY p.default_action ≤ ACTION_PRIORITY a ∧
          ∀ r ∈ rr, r.verdict = .FAIL →
            ACTION_PRIORITY r.action ≤ ACTION_PRIORITY a)) := by
  obtain ⟨a1, a2, a3, a4, a5⟩ := wtAcc_components rr ⟨0, 0, [], [], []⟩
  simp only [zero_add, List.nil_append] at a1 a2 a3 a4 a5
  have hscore :
      (if (rr.foldl wtStep ⟨0, 0, [], [], []⟩).totalWeight > 0 then
        (rr.foldl wtStep ⟨0, 0, [], [], []⟩).passedWeight /
          (rr.foldl wtStep ⟨0, 0, [], [], []⟩).totalWeight
      else 0) = wtScore rr := by
    rw [a1, a2, wtScore]
  by_cases hsc : effectiveThreshold p ≤ wtScore rr
  · have hagg : WeightedThresholdStrategy.aggregate rr p =
        { final_verdict := .ALLOW
          passed := true
          summary :=
            { total_rules := rr.length
              passed := (rr.filter fun r => r.verdict == Verdict.PASS).length
              failed := (rr.filter fun r => r.verdict == Verdict.FAIL).length
              uncertain := (rr.filter fun r => r.verdict == Verdict.UNCERTAIN).length
              strategy := "weighted_threshold"
              reason := "weighted score reached threshold"
              score := some (wtScore rr)
              threshold := some (effectiveThreshold p) } } := by
      simp only [WeightedThresholdStrategy.aggregate, hscore, a3, a4, a5]
      rw [if_pos]
      simp [hsc]
    rw [hagg]
    refine ⟨by simp [hsc], fun _ => rfl, fun hn => absurd hsc hn⟩
  · have hagg : WeightedThresholdStrategy.aggregate rr p =
        { final_verdict :=
            (if (rr.filter fun r => r.verdict == Verdict.FAIL).length > 0 then
              determineFinalAction (rr.filter fun r => r.verdict == Verdict.FAIL)
                p.default_action
            else FinalVerdict.BLOCK)
          passed := false
          summary :=
            { total_rules := rr.length
              passed := (rr.filter fun r => r.verdict == Verdict.PASS).length
              failed := (rr.filter fun r => r.verdict == Verdict.FAIL).length
              uncertain := (rr.filter fun r => r.verdict == Verdict.UNCERTAIN).length
              strategy := "weighted_threshold"
              reason := "weighted score below threshold"
              score := some (wtScore rr)
              threshold := some (effectiveThreshold p) } } := by
      simp only [WeightedThresholdStrategy.aggregate, hscore, a3, a4, a5]
      rw [if_neg]
      simp [hsc]
    rw [hagg]
    refine ⟨by simp [hsc], fun h => absurd h hsc, fun _ => ⟨rfl, ?_, ?_⟩⟩
    · intro hnofail
      have hfil : (rr.filter fun r => r.verdict == Verdict.FAIL) = [] := by
        rw [List.filter_eq_nil]
        intro r hr h
        exact hnofail r hr (by simpa using h)
      simp [hfil]
    · intro hfail
      obtain ⟨r0, hr0, hf0⟩ := hfail
      have hfil : 0 < (rr.filter fun r => r.verdict == Verdict.FAIL).length := by
        apply List.length_pos.mpr
        intro hnil
        have hmem : r0 ∈ rr.filter fun r => r.verdict == Verdict.FAIL := by
          rw [List.mem_filter]
          exact ⟨hr0, by rw [hf0]; rfl⟩
        rw [hnil] at hmem
        exact List.not_mem_nil r0 hmem
      simp only [if_pos hfil]
      exact determineFinalAction_max_spec rr p.default_action

/-- Witness for `weighted_threshold_spec` at a concrete passing input: one
PASS rule of weight 1 against a configured threshold of 1/2. -/
theorem weighted_threshold_spec_witness :
    (WeightedThresholdStrategy.aggregate
        [{ rule_id := "r1", verdict := .PASS, confidence := 1, reasoning := "x",
           action := .warn, weight := 1, latency_ms := 0 }]
        { name := "p", version := none, default_action := .allow, rules := [],
          evaluation_strategy := "weighted_threshold",
          threshold := some (1/2) }).final_verdict = FinalVerdict.ALLOW :=
  (weighted_threshold_spec _ _).2.1 (by
    norm_num [wtScore, effWeight, wtContribution, effectiveThreshold, jsOr, jsOrNum])

/-! ## C5: unknown evaluation strategy -/

/-- C5: when the policy's `evaluation_strategy` names none of the known
strategies, `PolicyEngine.evaluate` does not raise (it is a total function
here): it returns `final_verdict = ERROR`, `passed = false`, empty
`rule_results` and an error message; and whenever the strategy IS known, the
verdict comes from that strategy's aggregation, so the unknown-strategy
branch is the only path that bypasses aggregation. -/
theorem policyEngine_unknown_strategy (judge : Rule → String → JudgeEvaluationResult)
    (policy : Policy) (content : String) :
    (policy.evaluation_strategy ≠ "all" → policy.evaluation_strategy ≠ "any" →
      policy.evaluation_strategy ≠ "weighted_threshold" →
      PolicyEngine.evaluate judge policy content =
        { policy_name := policy.name
          policy_version := policy.version
          final_verdict := .ERROR
          passed := false
          rule_results := []
          summary := none
          error := some ("Unknown evaluation strategy: " ++ policy.evaluation_strategy ++
            ". Valid options: all, any, weighted_threshold") }) ∧
    (∀ f, createStrategy policy.evaluation_strategy = some f →
      (PolicyEngine.evaluate judge policy content).final_verdict =
        (f (evaluateRules judge policy.rules content) policy).final_verdict ∧
      (PolicyEngine.evaluate judge policy content).passed =
        (f (evaluateRules judge policy.rules content) policy).passed ∧
      (PolicyEngine.evaluate judge policy content).error = none) := by
  constructor
  · intro h1 h2 h3
    have hnone : createStrategy policy.evaluation_strategy = none := by
      unfold createStrategy
      rw [if_neg h1, if_neg h2, if_neg h3]
    unfold PolicyEngine.evaluate
    rw [hnone]
  · intro f hf
    unfold PolicyEngine.evaluate
    rw [hf]
    exact ⟨rfl, rfl, rfl⟩

/-- Witness for `policyEngine_unknown_strategy`: a concrete policy whose
strategy string is `"majority"`, which is not registered. -/
theorem policyEngine_unknown_strategy_witness :
    (PolicyEngine.evaluate (fun _ _ =>
        { verdict := .PASS, confidence := 0.9, reasoning := "ok", latency_ms := none,
          error := none, errorType := none })
      { name := "p", version := none, default_action := .allow, rules := [],
        evaluation_strategy := "majority", threshold := none } "hello").final_verdict =
      FinalVerdict.ERROR := by
  have h := (policyEngine_unknown_strategy (fun _ _ =>
      { verdict := .PASS, confidence := 0.9, reasoning := "ok", latency_ms := none,
        error := none, errorType := none })
    { name := "p", version := none, default_action := .allow, rules := [],
      evaluation_strategy := "majority", threshold := none } "hello").1
    (by decide) (by decide) (by decide)
  rw [h]

/-! ## C8: confidence normalisation -/

/-- C8: `normalizeConfidence` always lands in `[0, 1]`; missing or
non-numeric input yields `0.5`; an input above 1 is read on the 0-100 scale
(divided by 100 and capped at 1); negative inputs clamp to 0. -/
theorem normalizeConfidence_spec (c : Option ConfValue) :
    (0 ≤ normalizeConfidence c ∧ normalizeConfidence c ≤ 1) ∧
    normalizeConfidence none = 0.5 ∧
    normalizeConfidence (some .nonNumeric) = 0.5 ∧
    (∀ q : ℚ, 1 < q → normalizeConfidence (some (.num q)) = min 1 (q / 100)) ∧
    (∀ q : ℚ, q < 0 → normalizeConfidence (some (.num q)) = 0) := by
  refine ⟨?_, rfl, rfl, ?_, ?_⟩
  · rcases c with _ | cv
    · norm_num [normalizeConfidence]
    · rcases cv with q | _
      · by_cases hq : 1 < q
        · have hpos : (0 : ℚ) < q / 100 := div_pos (by linarith) (by norm_num)
          constructor
          · simp only [normalizeConfidence, if_pos hq]
            exact le_min (by norm_num) (le_of_lt hpos)
          · simp only [normalizeConfidence, if_pos hq]
            exact min_le_left _ _
        · constructor
          · simp only [normalizeConfidence, if_neg hq]
            exact le_max_left _ _
          · simp only [normalizeConfidence, if_neg hq]
            exact max_le (by norm_num) (min_le_left _ _)
      · norm_num [normalizeConfidence]
  · intro q hq
    simp only [normalizeConfidence, if_pos hq]
  · intro q hq
    have hq1 : ¬(1 < q) := by linarith
    simp only [normalizeConfidence, if_neg hq1]
    rw [min_eq_right (by linarith), max_eq_left (by linarith)]

/-- Witness for `normalizeConfidence_spec` at concrete inputs: 85 on the
0-100 scale becomes 0.85, and a negative confidence becomes 0. -/
theorem normalizeConfidence_spec_witness :
    normalizeConfidence (some (.num 85)) = min 1 (85 / 100) ∧
    normalizeConfidence (some (.num (-3))) = 0 :=
  ⟨(normalizeConfidence_spec (some (.num 85))).2.2.2.1 85 (by norm_num),
   (normalizeConfidence_spec (some (.num (-3)))).2.2.2.2 (-3) (by norm_num)⟩

/-! ## C7: retry delay formula -/

/-- C7 counterexample: `initialDelayMs = 1000`, `backoffMultiplier = 2`,
`maxDelayMs = 10000`, `jitterFactor = 0.1`, a RATE_LIMIT failure with
`retryAfterMs = 60000`, attempt 1, zero jitter draw.  The claim's formula
gives `max(min(1000, 10000), 60000) = 60000`; the code applies the
`retry-after` floor BEFORE the `maxDelayMs` cap and returns
`min(max(1000, 60000), 10000) = 10000`. -/
theorem c7_counterexample :
    calculateRetryDelay ⟨3, 1000, 10000, 2, 1/10⟩ ⟨true, 60000, none⟩ 1
      .RATE_LIMIT 0 = 10000 ∧
    claimedRetryDelay ⟨3, 1000, 10000, 2, 1/10⟩ ⟨true, 60000, none⟩ 1
      .RATE_LIMIT 0 = 60000 ∧
    ((10000 : ℚ) ≠ 60000) := by
  refine ⟨?_, ?_, by norm_num⟩
  · simp +decide [calculateRetryDelay]
  · simp +decide [claimedRetryDelay]

/-- C7 (amended): the delay equals
`floor(min(b, maxDelayMs) * (1 + jitterFactor * rand))` where `b` is the
exponential backoff `initialDelayMs * backoffMultiplier^(attempt-1)`, raised
to `retryAfterMs` when the failure was RATE_LIMIT with positive
`retryAfterMs` — the retry-after floor is applied BEFORE the `maxDelayMs`
cap, so (for nonnegative jitter parameters) the delay never exceeds
`floor(maxDelayMs * (1 + jitterFactor * rand))`; `handleRateLimit` sets
`retryAfterMs` to the parsed retry-after seconds times 1000, defaulting to
60000 ms. -/
theorem calculateRetryDelay_spec (rc : RetryConfig) (rl : RateLimitState)
    (attempt : ℕ) (errorType : ErrorType) (rand : ℚ) :
    calculateRetryDelay rc rl attempt errorType rand =
      Int.floor
        ((min (if errorType = .RATE_LIMIT ∧ rl.retryAfterMs > 0 then
              max (rc.initialDelayMs * rc.backoffMultiplier ^ (attempt - 1))
                rl.retryAfterMs
            else rc.initialDelayMs * rc.backoffMultiplier ^ (attempt - 1))
          rc.maxDelayMs) * (1 + rc.jitterFactor * rand)) ∧
    (0 ≤ rc.jitterFactor → 0 ≤ rand →
      calculateRetryDelay rc rl attempt errorType rand ≤
        Int.floor (rc.maxDelayMs * (1 + rc.jitterFactor * rand))) ∧
    (∀ (rl' : RateLimitState) (e : ExtendedError) (now : ℕ),
      (handleRateLimit rl' e now).isLimited = true ∧
      (handleRateLimit rl' e now).retryAfterMs =
        (match e.retryAfterSeconds with
         | some s => (s : ℚ) * 1000
         | none => 60000)) := by
  have hone : ∀ (hj : 0 ≤ rc.jitterFactor) (hr : 0 ≤ rand),
      (0 : ℚ) ≤ 1 + rc.jitterFactor * rand := by
    intro hj hr
    nlinarith
  refine ⟨?_, ?_, ?_⟩
  · unfold calculateRetryDelay
    split_ifs with h
    · congr 1
      ring
    · congr 1
      ring
  · intro hj hr
    unfold calculateRetryDelay
    apply Int.floor_le_floor
    split_ifs with h
    · have hmin : min (max (rc.initialDelayMs * rc.backoffMultiplier ^ (attempt - 1))
          rl.retryAfterMs) rc.maxDelayMs ≤ rc.maxDelayMs := min_le_right _ _
      nlinarith [mul_nonneg (sub_nonneg.mpr hmin) (hone hj hr)]
    · have hmin : min (rc.initialDelayMs * rc.backoffMultiplier ^ (attempt - 1))
          rc.maxDelayMs ≤ rc.maxDelayMs := min_le_right _ _
      nlinarith [mul_nonneg (sub_nonneg.mpr hmin) (hone hj hr)]
  · intro rl' e now
    exact ⟨rfl, rfl⟩

/-- Witness for `calculateRetryDelay_spec` with the nonnegativity
hypotheses discharged at the concrete C7 configuration. -/
theorem calculateRetryDelay_spec_witness :
    calculateRetryDelay ⟨3, 1000, 10000, 2, 1/10⟩ ⟨true, 60000, none⟩ 1
      .RATE_LIMIT 0 ≤
      Int.floor ((10000 : ℚ) * (1 + 1/10 * 0)) :=
  (calculateRetryDelay_spec ⟨3, 1000, 10000, 2, 1/10⟩ ⟨true, 60000, none⟩ 1
    .RATE_LIMIT 0).2.1 (by norm_num) (by norm_num)

/-! ## C6: retry discipline -/

theorem retryGo_calls_le (attempts : ℕ → Except ExtendedError JudgeResultCore)
    (le₀ : ExtendedError) (a r : ℕ) :
    (retryGo attempts le₀ a r).2 ≤ a - 1 + r := by
  induction r generalizing a le₀ with
  | zero => simp [retryGo]
  | succ n ih =>
    simp only [retryGo]
    cases hA : attempts a with
    | ok v =>
      simp only
      omega
    | error e =>
      by_cases hret : isRetryableError (categorizeError e)
      · simp only [if_pos hret]
        have := ih e (a + 1)
        omega
      · simp only [if_neg hret]
        omega

theorem retryGo_retried_retryable (attempts : ℕ → Except ExtendedError JudgeResultCore)
    (le₀ : ExtendedError) (a r k : ℕ) (hk : a ≤ k)
    (hlt : k < (retryGo attempts le₀ a r).2) :
    ∃ e, attempts k = .error e ∧ isRetryableError (categorizeError e) = true := by
  induction r generalizing a le₀ with
  | zero =>
    simp only [retryGo] at hlt
    omega
  | succ n ih =>
    simp only [retryGo] at hlt
    cases hA : attempts a with
    | ok v =>
      rw [hA] at hlt
      simp only at hlt
      omega
    | error e =>
      rw [hA] at hlt
      dsimp only at hlt
      by_cases hret : isRetryableError (categorizeError e)
      · rw [if_pos hret] at hlt
        rcases Nat.eq_or_lt_of_le hk with heq | hlt2
        · subst heq
          exact ⟨e, hA, hret⟩
        · exact ih e (a + 1) hlt2 hlt
      · rw [if_neg hret] at hlt
        dsimp only at hlt
        omega

/-- C6: the provider is called at most `maxRetries` times; every attempt
that was followed by another attempt failed with a retryable error category
(TIMEOUT, RATE_LIMIT, SERVER_ERROR or NETWORK_ERROR); and an attempt that
fails with AUTH_ERROR or PARSE_ERROR is the last one, regardless of the
remaining retry budget. -/
theorem retry_policy_spec (openai : Bool)
    (attempts : ℕ → Except ExtendedError JudgeResultCore) (maxRetries : ℕ) :
    (evaluateWithRetry openai attempts maxRetries).2 ≤ maxRetries ∧
    (∀ k, 1 ≤ k → k < (evaluateWithRetry openai attempts maxRetries).2 →
      ∃ e, attempts k = .error e ∧ isRetryableError (categorizeError e) = true) ∧
    (∀ k e, 1 ≤ k → k ≤ (evaluateWithRetry openai attempts maxRetries).2 →
      attempts k = .error e →
      (categorizeError e = .AUTH_ERROR ∨ categorizeError e = .PARSE_ERROR) →
      (evaluateWithRetry openai attempts maxRetries).2 = k) := by
  unfold evaluateWithRetry
  by_cases ho : openai = true
  · simp only [if_pos ho]
    refine ⟨?_, ?_, ?_⟩
    · have := retryGo_calls_le attempts
        { message := "Unknown error", status := none, statusCode := none,
          code := none, retryAfterSeconds := none } 1 maxRetries
      omega
    · intro k hk1 hklt
      exact retryGo_retried_retryable attempts _ 1 maxRetries k hk1 hklt
    · intro k e hk1 hkle hAk hcat
      by_contra hne
      have hklt : k < (retryGo attempts
          { message := "Unknown error", status := none, statusCode := none,
            code := none, retryAfterSeconds := none } 1 maxRetries).2 := by
        omega
      obtain ⟨e', hA', hret'⟩ :=
        retryGo_retried_retryable attempts _ 1 maxRetries k hk1 hklt
      rw [hAk] at hA'
      injection hA' with he'
      subst he'
      rcases hcat with hc | hc <;> rw [hc] at hret' <;> exact absurd hret' (by decide)
  · have ho' : openai = false := by
      cases openai
      · rfl
      · exact absurd rfl ho
    subst ho'
    simp only [Bool.false_eq_true, if_neg (by decide : ¬False)]
    refine ⟨Nat.zero_le _, ?_, ?_⟩
    · intro k hk1 hklt
      exact absurd hklt (by simp)
    · intro k e hk1 hkle _ _
      have hk0 : k ≤ 0 := by simpa using hkle
      exact absurd (le_trans hk1 hk0) (by decide)

/-- Witness for `retry_policy_spec`: with `maxRetries = 3` and a first
attempt failing with a 401 AUTH_ERROR, the loop stops after exactly one
provider call. -/
theorem retry_policy_spec_witness :
    (evaluateWithRetry true
        (fun _ => .error ⟨"Unauthorized", some 401, none, none, none⟩) 3).2 = 1 :=
  (retry_policy_spec true
      (fun _ => .error ⟨"Unauthorized", some 401, none, none, none⟩) 3).2.2 1
    ⟨"Unauthorized", some 401, none, none, none⟩
    (by decide) (by decide) rfl (.inl (by decide))

/-! ## C4: circuit breaker state machine -/

/-- The `k` consecutive recorded successes. -/
theorem recordFailure_closed (st : JudgeState) (et : ErrorType) (e : ExtendedError)
    (now : ℕ) (hs : st.circuitBreaker.state = .CLOSED)
    (hc : st.circuitBreaker.failureCount + 1 < st.circuitBreaker.failureThreshold) :
    (recordFailure st et e now).circuitBreaker.state = .CLOSED ∧
    (recordFailure st et e now).circuitBreaker.failureCount =
      st.circuitBreaker.failureCount + 1 ∧
    (recordFailure st et e now).circuitBreaker.failureThreshold =
      st.circuitBreaker.failureThreshold := by
  unfold recordFailure
  dsimp only
  rw [hs]
  rw [if_neg (by decide : ¬(CircuitState.CLOSED = CircuitState.HALF_OPEN))]
  rw [if_neg (by omega :
    ¬(st.circuitBreaker.failureCount + 1 ≥ st.circuitBreaker.failureThreshold))]
  exact ⟨rfl, rfl, rfl⟩

theorem recordFailure_trip (st : JudgeState) (et : ErrorType) (e : ExtendedError)
    (now : ℕ) (hs : st.circuitBreaker.state = .CLOSED)
    (hc : st.circuitBreaker.failureCount + 1 ≥ st.circuitBreaker.failureThreshold) :
    (recordFailure st et e now).circuitBreaker.state = .OPEN := by
  unfold recordFailure
  dsimp only
  rw [hs]
  rw [if_neg (by decide : ¬(CircuitState.CLOSED = CircuitState.HALF_OPEN))]
  rw [if_pos hc]
  unfold openCircuit
  dsimp only
  rw [if_pos (by decide : CircuitState.CLOSED ≠ CircuitState.OPEN)]

theorem recordFailure_halfopen (st : JudgeState) (et : ErrorType) (e : ExtendedError)
    (now : ℕ) (hs : st.circuitBreaker.state = .HALF_OPEN) :
    (recordFailure st et e now).circuitBreaker.state = .OPEN := by
  unfold recordFailure
  dsimp only
  rw [hs]
  rw [if_pos rfl]
  unfold openCircuit
  dsimp only
  rw [if_pos (by decide : CircuitState.HALF_OPEN ≠ CircuitState.OPEN)]

theorem applyFailures_closed (l : List (ErrorType × ExtendedError × ℕ)) :
    ∀ st : JudgeState, st.circuitBreaker.state = .CLOSED →
    st.circuitBreaker.failureCount + l.length < st.circuitBreaker.failureThreshold →
    (applyFailures st l).circuitBreaker.state = .CLOSED ∧
    (applyFailures st l).circuitBreaker.failureCount =
      st.circuitBreaker.failureCount + l.length ∧
    (applyFailures st l).circuitBreaker.failureThreshold =
      st.circuitBreaker.failureThreshold := by
  induction l with
  | nil =>
    intro st hs hc
    exact ⟨hs, rfl, rfl⟩
  | cons f t ih =>
    intro st hs hc
    simp only [List.length_cons] at hc
    simp only [applyFailures]
    obtain ⟨h1, h2, h3⟩ := recordFailure_closed st f.1 f.2.1 f.2.2 hs (by omega)
    obtain ⟨g1, g2, g3⟩ := ih _ h1 (by rw [h2, h3]; omega)
    refine ⟨g1, ?_, by rw [g3, h3]⟩
    rw [g2, h2]
    simp only [List.length_cons]
    omega

theorem applyFailures_opens (l : List (ErrorType × ExtendedError × ℕ)) :
    ∀ st : JudgeState, st.circuitBreaker.state = .CLOSED →
    st.circuitBreaker.failureCount + l.length = st.circuitBreaker.failureThreshold →
    1 ≤ l.length →
    (applyFailures st l).circuitBreaker.state = .OPEN := by
  induction l with
  | nil =>
    intro st hs hlen h1
    simp at h1
  | cons f t ih =>
    intro st hs hlen _
    simp only [List.length_cons] at hlen
    simp only [applyFailures]
    rcases Nat.eq_zero_or_pos t.length with ht0 | htpos
    · have ht : t = [] := List.length_eq_zero.mp ht0
      subst ht
      have htrip := recordFailure_trip st f.1 f.2.1 f.2.2 hs (by simp at hlen; omega)
      simpa [applyFailures] using htrip
    · obtain ⟨h1, h2, h3⟩ := recordFailure_closed st f.1 f.2.1 f.2.2 hs (by omega)
      exact ih _ h1 (by rw [h2, h3]; omega) htpos

theorem recordSuccess_halfopen_step (st : JudgeState)
    (hs : st.circuitBreaker.state = .HALF_OPEN)
    (hc : st.circuitBreaker.halfOpenSuccessCount + 1 <
      st.circuitBreaker.halfOpenSuccessThreshold) :
    (recordSuccess st).circuitBreaker.state = .HALF_OPEN ∧
    (recordSuccess st).circuitBreaker.halfOpenSuccessCount =
      st.circuitBreaker.halfOpenSuccessCount + 1 ∧
    (recordSuccess st).circuitBreaker.halfOpenSuccessThreshold =
      st.circuitBreaker.halfOpenSuccessThreshold := by
  unfold recordSuccess
  dsimp only
  rw [hs]
  rw [if_pos rfl]
  rw [if_neg (by omega : ¬(st.circuitBreaker.halfOpenSuccessCount + 1 ≥
    st.circuitBreaker.halfOpenSuccessThreshold))]
  exact ⟨rfl, rfl, rfl⟩

theorem recordSuccess_halfopen_close (st : JudgeState)
    (hs : st.circuitBreaker.state = .HALF_OPEN)
    (hc : st.circuitBreaker.halfOpenSuccessCount + 1 ≥
      st.circuitBreaker.halfOpenSuccessThreshold) :
    (recordSuccess st).circuitBreaker.state = .CLOSED ∧
    (recordSuccess st).circuitBreaker.failureCount = 0 := by
  unfold recordSuccess
  dsimp only
  rw [hs]
  rw [if_pos rfl]
  rw [if_pos hc]
  exact ⟨rfl, rfl⟩

theorem applySuccesses_halfopen (k : ℕ) :
    ∀ st : JudgeState, st.circuitBreaker.state = .HALF_OPEN →
    st.circuitBreaker.halfOpenSuccessCount + k <
      st.circuitBreaker.halfOpenSuccessThreshold →
    (applySuccesses st k).circuitBreaker.state = .HALF_OPEN ∧
    (applySuccesses st k).circuitBreaker.halfOpenSuccessCount =
      st.circuitBreaker.halfOpenSuccessCount + k ∧
    (applySuccesses st k).circuitBreaker.halfOpenSuccessThreshold =
      st.circuitBreaker.halfOpenSuccessThreshold := by
  induction k with
  | zero =>
    intro st hs hc
    exact ⟨hs, rfl, rfl⟩
  | succ n ih =>
    intro st hs hc
    simp only [applySuccesses]
    obtain ⟨h1, h2, h3⟩ := recordSuccess_halfopen_step st hs (by omega)
    obtain ⟨g1, g2, g3⟩ := ih _ h1 (by rw [h2, h3]; omega)
    refine ⟨g1, by rw [g2, h2]; omega, by rw [g3, h3]⟩

theorem applySuccesses_closes (k : ℕ) :
    ∀ st : JudgeState, st.circuitBreaker.state = .HALF_OPEN →
    st.circuitBreaker.halfOpenSuccessCount + k =
      st.circuitBreaker.halfOpenSuccessThreshold →
    1 ≤ k →
    (applySuccesses st k).circuitBreaker.state = .CLOSED ∧
    (applySuccesses st k).circuitBreaker.failureCount = 0 := by
  induction k with
  | zero =>
    intro st hs hlen h1
    simp at h1
  | succ n ih =>
    intro st hs hlen _
    simp only [applySuccesses]
    rcases Nat.eq_zero_or_pos n with hn0 | hnpos
    · subst hn0
      have hclose := recordSuccess_halfopen_close st hs (by omega)
      simpa [applySuccesses] using hclose
    · obtain ⟨h1, h2, h3⟩ := recordSuccess_halfopen_step st hs (by omega)
      exact ih _ h1 (by rw [h2, h3]; omega) hnpos

/-- C4: the circuit breaker starts CLOSED; exactly `failureThreshold`
consecutive failures from a clean CLOSED state open it (fewer leave it
CLOSED); while OPEN and before `resetTimeoutMs` has elapsed a call fails
fast (`checkCircuitBreaker` throws and `evaluate` never consults the
provider oracle); once `resetTimeoutMs` has elapsed the next check moves to
HALF_OPEN with the success counter reset; `halfOpenSuccessThreshold`
consecutive successes close the circuit and reset `failureCount`; any single
failure in HALF_OPEN reopens it. -/
theorem circuit_breaker_spec (ft rt : ℕ) :
    (initCircuitBreaker ft rt).state = .CLOSED ∧
    (∀ (st : JudgeState) (l : List (ErrorType × ExtendedError × ℕ)),
      st.circuitBreaker.state = .CLOSED → st.circuitBreaker.failureCount = 0 →
      (l.length < st.circuitBreaker.failureThreshold →
        (applyFailures st l).circuitBreaker.state = .CLOSED) ∧
      (l.length = st.circuitBreaker.failureThreshold → 1 ≤ l.length →
        (applyFailures st l).circuitBreaker.state = .OPEN)) ∧
    (∀ (cb : CircuitBreakerConfig) (now : ℕ), cb.state = .OPEN →
      now - cb.lastFailureTime.getD 0 < cb.resetTimeoutMs →
      checkCircuitBreaker cb now = .error "Circuit breaker OPEN - service unavailable") ∧
    (∀ (cfg : ServiceConfig) (st : JudgeState) (rule : Rule) (content : String)
      (now : ℕ) (att₁ att₂ : ℕ → Except ExtendedError JudgeResultCore),
      st.circuitBreaker.state = .OPEN →
      now - st.circuitBreaker.lastFailureTime.getD 0 < st.circuitBreaker.resetTimeoutMs →
      JudgeService.evaluate cfg st att₁ rule content now =
        JudgeService.evaluate cfg st att₂ rule content now) ∧
    (∀ (cb : CircuitBreakerConfig) (now : ℕ), cb.state = .OPEN →
      cb.resetTimeoutMs ≤ now - cb.lastFailureTime.getD 0 →
      checkCircuitBreaker cb now =
        .ok { cb with state := .HALF_OPEN, halfOpenSuccessCount := 0 }) ∧
    (∀ (st : JudgeState) (k : ℕ), st.circuitBreaker.state = .HALF_OPEN →
      st.circuitBreaker.halfOpenSuccessCount = 0 →
      (k < st.circuitBreaker.halfOpenSuccessThreshold →
        (applySuccesses st k).circuitBreaker.state = .HALF_OPEN) ∧
      (k = st.circuitBreaker.halfOpenSuccessThreshold → 1 ≤ k →
        (applySuccesses st k).circuitBreaker.state = .CLOSED ∧
        (applySuccesses st k).circuitBreaker.failureCount = 0)) ∧
    (∀ (st : JudgeState) (et : ErrorType) (e : ExtendedError) (now : ℕ),
      st.circuitBreaker.state = .HALF_OPEN →
      (recordFailure st et e now).circuitBreaker.state = .OPEN) := by
  refine ⟨rfl, ?_, ?_, ?_, ?_, ?_, ?_⟩
  · intro st l hs hc0
    constructor
    · intro hlt
      exact (applyFailures_closed l st hs (by omega)).1
    · intro heq h1
      exact applyFailures_opens l st hs (by omega) h1
  · intro cb now hs hlt
    unfold checkCircuitBreaker
    rw [if_pos hs, if_neg (by omega)]
  · intro cfg st rule content now att₁ att₂ hs hlt
    have hcb : checkCircuitBreaker st.circuitBreaker now =
        .error "Circuit breaker OPEN - service unavailable" := by
      unfold checkCircuitBreaker
      rw [if_pos hs, if_neg (by omega)]
    unfold JudgeService.evaluate evalInner
    rw [hcb]
  · intro cb now hs hge
    unfold checkCircuitBreaker
    rw [if_pos hs, if_pos hge]
  · intro st k hs hc0
    constructor
    · intro hlt
      exact (applySuccesses_halfopen k st hs (by omega)).1
    · intro heq h1
      exact applySuccesses_closes k st hs (by omega) h1
  · intro st et e now hs
    exact recordFailure_halfopen st et e now hs

/-- Witness for `circuit_breaker_spec`: a breaker with threshold 1 opens
after one failure from the clean CLOSED state, and an OPEN breaker checked
before its reset timeout throws. -/
theorem circuit_breaker_spec_witness :
    (applyFailures
        ⟨initCircuitBreaker 1 30000, ⟨false, 0, none⟩⟩
        [(.UNKNOWN, ⟨"boom", none, none, none, none⟩, 5)]).circuitBreaker.state =
      CircuitState.OPEN ∧
    checkCircuitBreaker
        ⟨.OPEN, 1, 1, 30000, some 100, 2, 0⟩ 200 =
      .error "Circuit breaker OPEN - service unavailable" :=
  ⟨((circuit_breaker_spec 1 30000).2.1
      ⟨initCircuitBreaker 1 30000, ⟨false, 0, none⟩⟩
      [(.UNKNOWN, ⟨"boom", none, none, none, none⟩, 5)] rfl rfl).2 rfl (by decide),
   (circuit_breaker_spec 1 30000).2.2.1 ⟨.OPEN, 1, 1, 30000, some 100, 2, 0⟩ 200 rfl
     (by decide)⟩

/-! ## C3: JudgeService.evaluate degrades to UNCERTAIN and never throws -/

/-- C3: `JudgeService.evaluate` is a total function returning exactly one
result-state pair (the Lean counterpart of "never raises to its caller"),
and on any failure thrown inside the `try` block — retries exhausted,
non-retryable error, or circuit-breaker rejection — it resolves to the
synthetic result with `verdict = UNCERTAIN`, `confidence = 0`, a reasoning
describing the failure, the error message and the categorized error type,
recording the failure; on success it returns the provider's verdict with no
error attached, recording the success. -/
theorem judge_evaluate_degrades (cfg : ServiceConfig) (st : JudgeState)
    (attempts : ℕ → Except ExtendedError JudgeResultCore) (rule : Rule)
    (content : String) (now : ℕ) :
    (∀ e st1, evalInner cfg st attempts rule now = .error (e, st1) →
      JudgeService.evaluate cfg st attempts rule content now =
        ({ verdict := .UNCERTAIN
           confidence := 0
           reasoning := "Evaluation failed: " ++ e.message
           latency_ms := none
           error := some e.message
           errorType := some (categorizeError e) },
         recordFailure st1 (categorizeError e) e now)) ∧
    (∀ r st1, evalInner cfg st attempts rule now = .ok (r, st1) →
      JudgeService.evaluate cfg st attempts rule content now =
        ({ verdict := r.verdict
           confidence := r.confidence
           reasoning := r.reasoning
           latency_ms := none
           error := none
           errorType := none }, recordSuccess st1)) := by
  constructor
  · intro e st1 h
    unfold JudgeService.evaluate
    rw [h]
  · intro r st1 h
    unfold JudgeService.evaluate
    rw [h]

/-- Witness for `judge_evaluate_degrades`: a service whose OpenAI client was
never initialised; the inner evaluation throws `OPENAI_API_KEY not
configured` and `evaluate` resolves to the synthetic UNCERTAIN result. -/
theorem judge_evaluate_degrades_witness :
    (JudgeService.evaluate
        ⟨false, false, ⟨3, 1000, 10000, 2, 1/10⟩, fun _ => none⟩
        ⟨initCircuitBreaker 5 30000, ⟨false, 0, none⟩⟩
        (fun _ => .error ⟨"boom", none, none, none, none⟩)
        ⟨"r", none, "judge prompt", .warn, none⟩ "content" 0).1.verdict =
      Verdict.UNCERTAIN := by
  have h := (judge_evaluate_degrades
      ⟨false, false, ⟨3, 1000, 10000, 2, 1/10⟩, fun _ => none⟩
      ⟨initCircuitBreaker 5 30000, ⟨false, 0, none⟩⟩
      (fun _ => .error ⟨"boom", none, none, none, none⟩)
      ⟨"r", none, "judge prompt", .warn, none⟩ "content" 0).1
    ⟨"OPENAI_API_KEY not configured - cannot evaluate content", none, none, none, none⟩
    ⟨initCircuitBreaker 5 30000, ⟨false, 0, none⟩⟩ rfl
  rw [h]

end Trustwise
